import Mathlib

/-!
Verification development for a register-based bytecode virtual machine
(`src/virtual_machine.rs`, plus the instruction handler in
`src/vm/instructions/stdout.rs`).

The interpreter's dispatch loop, its instruction handlers and the
`run_file_fast` loader are shallowly embedded below.  Stateful Rust code
becomes explicit state passing; fallible code returns `Except`; the
potentially non-terminating dispatch loop is given fuel-indexed semantics
(`none` = the step budget ran out, i.e. the loop is still running).

Parts of the repository that the handlers call but whose sources are not
available (the `Thread` register file, the `Instruction`/`CompiledCode`
accessors, the `ensure_*`/`try_io!`/`try_error!` macros, the object
`truthy` test) are modelled from the specification; each such definition
carries a doc comment saying so.  Machine integers are modelled as `Int`
with explicit overflow behaviour where it matters; `f64` payloads and OS
threads are outside the modelled fragment (no claim mentions them).
-/

namespace InkoVM

/-- Modelled from the spec: the per-VM singleton prototypes, one per
primitive kind (§3).  Each singleton is a distinct object allocated once
at VM init, so prototype identity is faithfully represented by this
enumeration. -/
inductive Proto : Type where
  | integer
  | float
  | string
  | array
  | thread
  | method
  | compiledCode
  | file
  | trueP
  | falseP
deriving DecidableEq, Repr

/-- Failure modes of an instruction handler.  `fatal` embeds the Rust
`Err(String)` value that the dispatch loop propagates to the thread's
error routine; `crash` embeds a Rust runtime panic (e.g. integer division
by zero), which unwinds the OS thread and bypasses the error routine
entirely. -/
inductive VMError : Type where
  | fatal (msg : String)
  | crash (msg : String)
deriving DecidableEq, Repr

/-- The opcodes wired into the modelled dispatch loop (the subset the
claims exercise).  The `stdout_write` handler of the second source file
belongs to a different machine generation and is modelled as a
standalone function. -/
inductive InstructionType : Type where
  | SetInteger
  | SetString
  | SetTrue
  | SetFalse
  | Goto
  | GotoIfFalse
  | GotoIfTrue
  | Return
  | IntegerDiv
  | StdoutWrite
  | ArrayAt
  | ArrayRemove
  | StringToBytes
  | StringFromBytes
  | FileRead
  | RunFileFast
deriving DecidableEq, Repr

/-- Modelled from the spec (§4.2, `instruction.rs` is not in the sources):
an instruction is an opcode plus a dense vector of integer arguments,
with source line and column. -/
structure Instruction : Type where
  instruction_type : InstructionType
  arguments : List Nat
  line : Nat
  column : Nat
deriving DecidableEq, Repr

/-- Modelled from the spec (§4.2): `arg(i)` fetches the i-th argument or
fails with a fatal "argument ... missing" error. -/
def Instruction.arg (i : Instruction) (index : Nat) : Except VMError Nat :=
  match i.arguments[index]? with
  | some v => .ok v
  | none => .error (.fatal "argument missing")

/-- Modelled from the spec (§4.3, `compiled_code.rs` is not in the
sources): the immutable unit of execution.  Only the fields the modelled
instruction subset reads are included; string values are UTF-8 byte
sequences, mirroring the byte representation of Rust's `String`. -/
structure CompiledCode : Type where
  name : String
  file : String
  line : Nat
  instructions : List Instruction
  integer_literals : List Int
  string_literals : List (List Nat)
deriving DecidableEq, Repr

/-- Modelled from the spec (§4.3): literal accessors fail with a
descriptive error on an out-of-range index. -/
def CompiledCode.integer (c : CompiledCode) (index : Nat) : Except VMError Int :=
  match c.integer_literals[index]? with
  | some v => .ok v
  | none => .error (.fatal "undefined integer literal")

/-- Modelled from the spec (§4.3): string literal accessor. -/
def CompiledCode.string (c : CompiledCode) (index : Nat) : Except VMError (List Nat) :=
  match c.string_literals[index]? with
  | some v => .ok v
  | none => .error (.fatal "undefined string literal")

mutual
/-- A heap object: a payload value plus an optional prototype link
(`object.rs` is not in the sources; the shape follows §3).  The method,
attribute and constant tables, the diagnostic name and the pin flag are
omitted: no modelled instruction reads them.  `Rc` handles are inlined to
values; no claim depends on aliasing between registers. -/
inductive Obj : Type where
  | mk (value : ObjectValue) (proto : Option Proto)

/-- Modelled from the spec (§3): the tagged payload union.  `Float` and
`Thread` payloads are outside the modelled fragment (IEEE-754 and OS
threads respectively); no claim mentions them.  Strings are UTF-8 byte
sequences (each entry morally a `u8`), exactly the representation Rust's
`String` has. -/
inductive ObjectValue : Type where
  | objNone
  | objInt (n : Int)
  | objString (bytes : List Nat)
  | objArray (elems : List Obj)
  | objCompiledCode (cc : CompiledCode)
  | objError (msg : String)
  | objFile (handle : Nat)
end

/-- Payload of an object. -/
def Obj.value : Obj → ObjectValue
  | .mk v _ => v

/-- Prototype link of an object. -/
def Obj.proto : Obj → Option Proto
  | .mk _ p => p

/-- The `false` singleton: a plain object whose prototype is the false
prototype (§3 singletons). -/
def falseObject : Obj := .mk .objNone (some .falseP)

/-- The `true` singleton. -/
def trueObject : Obj := .mk .objNone (some .trueP)

/-- Modelled from the spec (§4.7, `object.rs` is not in the sources):
truthy = not the false singleton, integer non-zero, non-empty
string/array; an error object is not truthy. -/
def Obj.truthy : Obj → Bool
  | .mk (.objInt n) _ => decide (n ≠ 0)
  | .mk (.objString s) _ => !s.isEmpty
  | .mk (.objArray a) _ => !a.isEmpty
  | .mk (.objError _) _ => false
  | .mk .objNone p => decide (p ≠ some Proto.falseP)
  | .mk (.objCompiledCode _) _ => true
  | .mk (.objFile _) _ => true

/-- The sparse register file of a thread: slot number to object
(`thread.rs` is not in the sources; §3 describes the mapping). -/
def Regs : Type := Nat → Option Obj

/-- The empty register file. -/
def emptyRegs : Regs := fun _ => none

/-- Modelled from the spec (§3): `set_register` binds a slot,
overwriting any previous binding. -/
def setRegister (regs : Regs) (slot : Nat) (obj : Obj) : Regs :=
  fun r => if r = slot then some obj else regs r

/-- Modelled from the spec (§3): `get_register` reads a slot; reading an
unset slot is a (fatal) error. -/
def getRegister (regs : Regs) (slot : Nat) : Except VMError Obj :=
  match regs slot with
  | some o => .ok o
  | none => .error (.fatal "attempted to read an unset register slot")

/-- The `get_register_option` accessor used by `ins_return` and the
conditional jumps: reading an unset slot yields `none` instead of an
error. -/
def getRegisterOption (regs : Regs) (slot : Nat) : Option Obj :=
  regs slot

/-- Modelled from macro usage (`instruction_object!(instruction, thread,
i)`): fetch argument `i` and read that register, failing on a missing
argument or an unset slot. -/
def instructionObject (i : Instruction) (regs : Regs) (index : Nat) :
    Except VMError Obj := do
  let slot ← i.arg index
  getRegister regs slot

/-- Modelled from the spec (§7, `ensure_integers!`): a type mismatch is a
fatal error. -/
def ObjectValue.asInteger : ObjectValue → Except VMError Int
  | .objInt n => .ok n
  | _ => .error (.fatal "expected an integer object")

/-- Modelled from the spec (§7, `ensure_strings!`). -/
def ObjectValue.asString : ObjectValue → Except VMError (List Nat)
  | .objString s => .ok s
  | _ => .error (.fatal "expected a string object")

/-- Modelled from the spec (§7, `ensure_arrays!`). -/
def ObjectValue.asArray : ObjectValue → Except VMError (List Obj)
  | .objArray a => .ok a
  | _ => .error (.fatal "expected an array object")

/-- Modelled from the spec (§7, `ensure_files!`). -/
def ObjectValue.asFile : ObjectValue → Except VMError Nat
  | .objFile h => .ok h
  | _ => .error (.fatal "expected a file object")

/-- Rust's `as u8` cast on an `isize` value: keep the low 8 bits
(two's complement truncation, expressed as Euclidean remainder). -/
def intToU8 (n : Int) : Nat := (n % 256).toNat

/-- Modelled from Rust's standard library UTF-8 validation, used by
`String::from_utf8` in `ins_string_from_bytes` and by `read_to_string`:
checks the byte sequence against the UTF-8 well-formedness table (lead
byte ranges `00..7F`, `C2..DF`, `E0`, `E1..EC`, `ED`, `EE..EF`, `F0`,
`F1..F3`, `F4`, each followed by continuation bytes in the table's
ranges).  `expect` carries the inclusive ranges the pending continuation
bytes must fall in — exactly the per-lead-byte second/third/fourth byte
ranges of the Rust table.  Validation never transforms the bytes: a Rust
`String` is exactly its UTF-8 byte vector. -/
def validUtf8From : List (Nat × Nat) → List Nat → Bool
  | [], [] => true
  | _ :: _, [] => false
  | (lo, hi) :: expect, b :: rest =>
    (decide (lo ≤ b) && decide (b ≤ hi)) && validUtf8From expect rest
  | [], b :: rest =>
    if b ≤ 0x7F then validUtf8From [] rest
    else if 0xC2 ≤ b && b ≤ 0xDF then
      validUtf8From [(0x80, 0xBF)] rest
    else if b = 0xE0 then
      validUtf8From [(0xA0, 0xBF), (0x80, 0xBF)] rest
    else if (0xE1 ≤ b && b ≤ 0xEC) || b = 0xEE || b = 0xEF then
      validUtf8From [(0x80, 0xBF), (0x80, 0xBF)] rest
    else if b = 0xED then
      validUtf8From [(0x80, 0x9F), (0x80, 0xBF)] rest
    else if b = 0xF0 then
      validUtf8From [(0x90, 0xBF), (0x80, 0xBF), (0x80, 0xBF)] rest
    else if 0xF1 ≤ b && b ≤ 0xF3 then
      validUtf8From [(0x80, 0xBF), (0x80, 0xBF), (0x80, 0xBF)] rest
    else if b = 0xF4 then
      validUtf8From [(0x80, 0x8F), (0x80, 0xBF), (0x80, 0xBF)] rest
    else false

/-- A byte sequence is valid UTF-8 when validation starting with no
pending continuation bytes accepts it. -/
def validUtf8 (l : List Nat) : Bool := validUtf8From [] l

/-- The `i64` minimum, for the division overflow check. -/
def i64Min : Int := -(2 ^ 63)

/-- Outcomes supplied by the world outside the interpreter: the external
bytecode parser (§6.1), the host standard output stream, and file
contents.  Each is a pure oracle; theorems quantify over all of them. -/
structure Env : Type where
  parseFile : List Nat → Except String CompiledCode
  stdoutWriteOutcome : List Nat → Except String Nat
  stdoutFlushOutcome : Except String Unit
  fileReadOutcome : Nat → Except String (List Nat)

/-- Per-VM mutable state reachable from instruction handlers: the
executed-files registry of `run_file_fast`, plus an invocation counter
for the external parser (the observable side-effect counter the spec's
§8 properties refer to; `parse_file` is called exactly when the counter
increments). -/
structure VMState : Type where
  executedFiles : List (List Nat)
  parseCalls : Nat
deriving DecidableEq, Repr

/-- Handler for `SetInteger` (`ins_set_integer`): fetch the slot and the
literal index, allocate an integer object with the integer prototype and
bind it. -/
def ins_set_integer (code : CompiledCode) (i : Instruction) (regs : Regs) :
    Except VMError Regs := do
  let slot ← i.arg 0
  let index ← i.arg 1
  let value ← code.integer index
  pure (setRegister regs slot (.mk (.objInt value) (some .integer)))

/-- Handler for `SetString` (`ins_set_string`): allocate a string object
with the string prototype from the literal pool. -/
def ins_set_string (code : CompiledCode) (i : Instruction) (regs : Regs) :
    Except VMError Regs := do
  let slot ← i.arg 0
  let index ← i.arg 1
  let value ← code.string index
  pure (setRegister regs slot (.mk (.objString value) (some .string)))

/-- Handler for `SetTrue` (`ins_set_true`): bind the true singleton. -/
def ins_set_true (i : Instruction) (regs : Regs) : Except VMError Regs := do
  let slot ← i.arg 0
  pure (setRegister regs slot trueObject)

/-- Handler for `SetFalse` (`ins_set_false`): bind the false singleton. -/
def ins_set_false (i : Instruction) (regs : Regs) : Except VMError Regs := do
  let slot ← i.arg 0
  pure (setRegister regs slot falseObject)

/-- Handler for `Goto` (`ins_goto`): return the target index. -/
def ins_goto (i : Instruction) : Except VMError Nat :=
  i.arg 0

/-- Handler for `GotoIfFalse` (`ins_goto_if_false`): read the condition
slot with `get_register_option`; on a falsy or unset slot return the
skip target, otherwise `none`. -/
def ins_goto_if_false (i : Instruction) (regs : Regs) :
    Except VMError (Option Nat) := do
  let go_to ← i.arg 0
  let value_slot ← i.arg 1
  match getRegisterOption regs value_slot with
  | some obj => if obj.truthy then pure none else pure (some go_to)
  | none => pure (some go_to)

/-- Handler for `GotoIfTrue` (`ins_goto_if_true`): read the condition
slot with `get_register_option`; on a truthy object return the skip
target; on a falsy or unset slot return `none` (fall through, no
error). -/
def ins_goto_if_true (i : Instruction) (regs : Regs) :
    Except VMError (Option Nat) := do
  let go_to ← i.arg 0
  let value_slot ← i.arg 1
  match getRegisterOption regs value_slot with
  | some obj => if obj.truthy then pure (some go_to) else pure none
  | none => pure none

/-- Handler for `Return` (`ins_return`): read the slot with
`get_register_option` (an unset slot yields `none`) and hand the value
to the dispatch loop, which records it and continues. -/
def ins_return (i : Instruction) (regs : Regs) :
    Except VMError (Option Obj) := do
  let slot ← i.arg 0
  pure (getRegisterOption regs slot)

/-- Handler for `IntegerDiv` (`ins_integer_div`): both operands must be
integers (fatal type error otherwise); the quotient is computed with
Rust's `/` operator on `i64`, which truncates toward zero and panics at
runtime on a zero divisor or on `i64::MIN / -1` — the handler has no
check of its own, so those inputs crash the thread instead of producing
the handler's `Err` value. -/
def ins_integer_div (i : Instruction) (regs : Regs) : Except VMError Regs := do
  let slot ← i.arg 0
  let receiver ← instructionObject i regs 1
  let arg ← instructionObject i regs 2
  let r ← receiver.value.asInteger
  let a ← arg.value.asInteger
  if a = 0 then
    .error (.crash "attempt to divide by zero")
  else if r = i64Min && a = -1 then
    .error (.crash "attempt to divide with overflow")
  else
    pure (setRegister regs slot (.mk (.objInt (r.tdiv a)) (some .integer)))

/-- Handler for `StdoutWrite` (`ins_stdout_write`): the operand must be a
string; the write outcome comes from the host stream oracle.  On success
bind an integer object holding the byte count; on failure `try_io!`
binds an error object to the result slot and the handler still returns
`Ok` (modelled from the spec §7: I/O errors are recoverable). -/
def ins_stdout_write (env : Env) (i : Instruction) (regs : Regs) :
    Except VMError Regs := do
  let slot ← i.arg 0
  let arg ← instructionObject i regs 1
  let s ← arg.value.asString
  match env.stdoutWriteOutcome s with
  | .ok n =>
      pure (setRegister regs slot (.mk (.objInt (Int.ofNat n)) (some .integer)))
  | .error e =>
      pure (setRegister regs slot (.mk (.objError e) none))

/-- Handler for `ArrayAt` (`ins_array_at`): the array comes from the
register named by argument 1 and the element index is the immediate
value of argument 2; out-of-bounds is a fatal error
(`ensure_array_within_bounds!`, modelled from the spec §4.11). -/
def ins_array_at (i : Instruction) (regs : Regs) : Except VMError Regs := do
  let slot ← i.arg 0
  let array ← instructionObject i regs 1
  let index ← i.arg 2
  let vector ← array.value.asArray
  match vector[index]? with
  | some value => pure (setRegister regs slot value)
  | none => .error (.fatal "array index out of bounds")

/-- Handler for `ArrayRemove` (`ins_array_remove`), exactly as the source
reads its arguments: the array comes from the register named by argument
1 and the removal index is ALSO taken from argument 1 (`instruction.arg(1)`),
not from argument 2 as the other array opcodes do.  The removed element
is bound to the slot named by argument 0, and the mutated array replaces
the register it was read from (the in-place mutation of the shared heap
cell, projected to that register). -/
def ins_array_remove (i : Instruction) (regs : Regs) : Except VMError Regs := do
  let slot ← i.arg 0
  let arrayReg ← i.arg 1
  let array ← getRegister regs arrayReg
  let index ← i.arg 1
  let vector ← array.value.asArray
  match vector[index]? with
  | some value =>
      let regs1 := setRegister regs arrayReg
        (.mk (.objArray (vector.eraseIdx index)) array.proto)
      pure (setRegister regs1 slot value)
  | none => .error (.fatal "array index out of bounds")

/-- Handler for `StringToBytes` (`ins_string_to_bytes`): map each byte of
the string to an integer object with the integer prototype and bind the
collected array (array prototype) to the result slot. -/
def ins_string_to_bytes (i : Instruction) (regs : Regs) :
    Except VMError Regs := do
  let slot ← i.arg 0
  let arg ← instructionObject i regs 1
  let s ← arg.value.asString
  let array := s.map (fun b => Obj.mk (.objInt (Int.ofNat b)) (some .integer))
  pure (setRegister regs slot (.mk (.objArray array) (some .array)))

/-- Handler for `StringFromBytes` (`ins_string_from_bytes`): every
element of the argument array must be an integer (fatal type error
otherwise); each is cast to `u8`; `String::from_utf8` validates the byte
sequence without transforming it.  On invalid UTF-8, `try_error!` binds
an error object to the result slot and the handler returns `Ok`
(modelled from the spec §7: recoverable); on valid input a string object
with the string prototype is bound. -/
def ins_string_from_bytes (i : Instruction) (regs : Regs) :
    Except VMError Regs := do
  let slot ← i.arg 0
  let arg ← instructionObject i regs 1
  let array ← arg.value.asArray
  let ints ← array.mapM (fun o => o.value.asInteger)
  let bytes := ints.map intToU8
  if validUtf8 bytes then
    pure (setRegister regs slot (.mk (.objString bytes) (some .string)))
  else
    pure (setRegister regs slot (.mk (.objError "invalid UTF-8") none))

/-- Modelled from the spec (§4.11, the `file_reading_buffer!` macro is
not in the sources): the optional size register only chooses the initial
buffer capacity, so the produced buffer is always empty; if the argument
is present, its register must hold an integer (treated as an error
otherwise, §9). -/
def fileReadingBuffer (i : Instruction) (regs : Regs) (index : Nat) :
    Except VMError (List Nat) :=
  match i.arguments[index]? with
  | none => .ok []
  | some r =>
    match regs r with
    | some (.mk (.objInt _) _) => .ok []
    | some _ => .error (.fatal "expected an integer object")
    | none => .error (.fatal "attempted to read an unset register slot")

/-- Handler for `FileRead` (`ins_file_read`): the operand must be a file
object; read to EOF through the file oracle (`read_to_string`); I/O
failure is recoverable (error object to the slot).  The resulting string
object is allocated — exactly as the source does — with the INTEGER
prototype (`int_proto`), not the string prototype. -/
def ins_file_read (env : Env) (i : Instruction) (regs : Regs) :
    Except VMError Regs := do
  let slot ← i.arg 0
  let fileObj ← instructionObject i regs 1
  let handle ← fileObj.value.asFile
  let buffer ← fileReadingBuffer i regs 2
  match env.fileReadOutcome handle with
  | .ok content =>
      pure (setRegister regs slot (.mk (.objString (buffer ++ content))
        (some .integer)))
  | .error e =>
      pure (setRegister regs slot (.mk (.objError e) none))

/-- Handler `stdout_write` from `src/vm/instructions/stdout.rs`: reads
the string register through the process register file (an unset slot or
a non-string value is an error), writes it, then flushes; either failure
produces an error object via `io_error_code!` (modelled from the spec
§7: recoverable), success an integer with the byte count (a tagged
integer, hence no prototype object).  The handler itself never fails
once its operand is a string. -/
def stdout_write (env : Env) (i : Instruction) (regs : Regs) :
    Except VMError Regs := do
  let register ← i.arg 0
  let slot1 ← i.arg 1
  let string_ptr ← getRegister regs slot1
  let s ← string_ptr.value.asString
  let obj :=
    match env.stdoutWriteOutcome s with
    | .ok num_bytes =>
        match env.stdoutFlushOutcome with
        | .ok _ => Obj.mk (.objInt (Int.ofNat num_bytes)) none
        | .error e => Obj.mk (.objError e) none
    | .error e => Obj.mk (.objError e) none
  pure (setRegister regs register obj)

/-- The `collect_arguments` helper: for each position in
`offset..offset+amount` it indexes `instruction.arguments` directly (a
runtime panic if the vector is too short — the source uses `Vec`
indexing, not `arg()`) and reads that register with `get_register`, so
an unset slot is a fatal error. -/
def collect_arguments (i : Instruction) (regs : Regs)
    (offset amount : Nat) : Except VMError (List Obj) :=
  (List.range amount).mapM (fun k =>
    match i.arguments[offset + k]? with
    | some arg_index => getRegister regs arg_index
    | none => .error (.crash "index out of bounds"))

/-- The mutable locals of the `run` loop plus the thread- and VM-level
state the handlers can reach: the instruction index, the active
`skip_until` target, the recorded return value, the register file, the
thread's `should_stop` flag (carried but, exactly as in the source loop
body, never consulted by it) and the VM state. -/
structure LoopState : Type where
  index : Nat
  skipUntil : Option Nat
  retval : Option Obj
  regs : Regs
  shouldStop : Bool
  vm : VMState

/-- The suppression test of the dispatch loop: with an active
`skip_until` target, an index still below it is skipped. -/
def shouldSkip : Option Nat → Nat → Bool
  | some t, i => decide (i < t)
  | none, _ => false

/-- A finished dispatch: the propagated handler error or the recorded
return value, along with the VM state (which survives errors — the
executed-files registry lives on the VM, not in the loop). -/
def RunResult : Type := Except VMError (Option Obj) × VMState

/-- The dispatch loop of `VirtualMachine::run`, from the `while` header
onward, with a step budget: `none` means the budget ran out with the
loop still running.  Each iteration: if the index is past the
instruction list the loop ends with the recorded return value; with an
active skip target not yet reached, `continue` — which, exactly as in
the source, re-enters the loop WITHOUT advancing the index; otherwise
clear the skip target, pre-increment the index and dispatch on the
opcode, propagating any handler error.  The `RunFileFast` branch inlines
`ins_run_file_fast` and the `run_code` invocation protocol (both also
stated as standalone definitions below, definitionally equal to this
inlined code) so that the recursion stays structural in the fuel. -/
def runLoop (env : Env) : Nat → CompiledCode → LoopState → Option RunResult
  | 0, _, _ => none
  | fuel + 1, code, s =>
    if h : s.index < code.instructions.length then
      if shouldSkip s.skipUntil s.index then
        runLoop env fuel code s
      else
        let i := code.instructions[s.index]
        let s1 : LoopState := { s with skipUntil := none, index := s.index + 1 }
        match i.instruction_type with
        | .SetInteger =>
          match ins_set_integer code i s1.regs with
          | .ok regs' => runLoop env fuel code { s1 with regs := regs' }
          | .error e => some (.error e, s1.vm)
        | .SetString =>
          match ins_set_string code i s1.regs with
          | .ok regs' => runLoop env fuel code { s1 with regs := regs' }
          | .error e => some (.error e, s1.vm)
        | .SetTrue =>
          match ins_set_true i s1.regs with
          | .ok regs' => runLoop env fuel code { s1 with regs := regs' }
          | .error e => some (.error e, s1.vm)
        | .SetFalse =>
          match ins_set_false i s1.regs with
          | .ok regs' => runLoop env fuel code { s1 with regs := regs' }
          | .error e => some (.error e, s1.vm)
        | .Goto =>
          match ins_goto i with
          | .ok target => runLoop env fuel code { s1 with index := target }
          | .error e => some (.error e, s1.vm)
        | .GotoIfFalse =>
          match ins_goto_if_false i s1.regs with
          | .ok sk => runLoop env fuel code { s1 with skipUntil := sk }
          | .error e => some (.error e, s1.vm)
        | .GotoIfTrue =>
          match ins_goto_if_true i s1.regs with
          | .ok sk => runLoop env fuel code { s1 with skipUntil := sk }
          | .error e => some (.error e, s1.vm)
        | .Return =>
          match ins_return i s1.regs with
          | .ok v => runLoop env fuel code { s1 with retval := v }
          | .error e => some (.error e, s1.vm)
        | .IntegerDiv =>
          match ins_integer_div i s1.regs with
          | .ok regs' => runLoop env fuel code { s1 with regs := regs' }
          | .error e => some (.error e, s1.vm)
        | .StdoutWrite =>
          match ins_stdout_write env i s1.regs with
          | .ok regs' => runLoop env fuel code { s1 with regs := regs' }
          | .error e => some (.error e, s1.vm)
        | .ArrayAt =>
          match ins_array_at i s1.regs with
          | .ok regs' => runLoop env fuel code { s1 with regs := regs' }
          | .error e => some (.error e, s1.vm)
        | .ArrayRemove =>
          match ins_array_remove i s1.regs with
          | .ok regs' => runLoop env fuel code { s1 with regs := regs' }
          | .error e => some (.error e, s1.vm)
        | .StringToBytes =>
          match ins_string_to_bytes i s1.regs with
          | .ok regs' => runLoop env fuel code { s1 with regs := regs' }
          | .error e => some (.error e, s1.vm)
        | .StringFromBytes =>
          match ins_string_from_bytes i s1.regs with
          | .ok regs' => runLoop env fuel code { s1 with regs := regs' }
          | .error e => some (.error e, s1.vm)
        | .FileRead =>
          match ins_file_read env i s1.regs with
          | .ok regs' => runLoop env fuel code { s1 with regs := regs' }
          | .error e => some (.error e, s1.vm)
        | .RunFileFast =>
          let inner : Option (Except VMError Regs × VMState) :=
            match i.arg 0 with
            | .error e => some (.error e, s1.vm)
            | .ok slot =>
              match i.arg 1 with
              | .error e => some (.error e, s1.vm)
              | .ok index =>
                match code.string index with
                | .error e => some (.error e, s1.vm)
                | .ok path =>
                  if s1.vm.executedFiles.contains path then
                    some (.ok s1.regs, s1.vm)
                  else
                    let vm1 : VMState := { s1.vm with
                      executedFiles := path :: s1.vm.executedFiles,
                      parseCalls := s1.vm.parseCalls + 1 }
                    match env.parseFile path with
                    | .ok body =>
                      match (if s1.shouldStop then some (.ok none, vm1) else
                          runLoop env fuel body
                            { index := 0, skipUntil := none, retval := none,
                              regs := emptyRegs, shouldStop := s1.shouldStop,
                              vm := vm1 }) with
                      | none => none
                      | some (.error e, vm') => some (.error e, vm')
                      | some (.ok res, vm') =>
                        match res with
                        | some v => some (.ok (setRegister s1.regs slot v), vm')
                        | none => some (.ok s1.regs, vm')
                    | .error _ =>
                      some (.error (.fatal "Failed to parse file"), vm1)
          match inner with
          | none => none
          | some (.ok regs', vm') =>
              runLoop env fuel code { s1 with regs := regs', vm := vm' }
          | some (.error e, vm') => some (.error e, vm')
    else
      some (.ok s.retval, s.vm)

/-- The `run_code` invocation protocol (§4.10): push a frame with a
fresh register file (the call-frame bookkeeping itself is not
observable by any modelled instruction and is elided), then invoke
`run`, which first consults the thread's `should_stop` flag. -/
def run_code (env : Env) (fuel : Nat) (cc : CompiledCode) (vm : VMState)
    (stop : Bool) : Option RunResult :=
  if stop then
    some (.ok none, vm)
  else
    runLoop env fuel cc
      { index := 0, skipUntil := none, retval := none, regs := emptyRegs,
        shouldStop := stop, vm := vm }

/-- The body of the `RunFileFast` handler (`ins_run_file_fast`),
abstracted over the `run_code` invocation it performs: if the path
literal is already in the executed-files registry, return `Ok` at once,
touching nothing — the registers, the registry and the parser-invocation
counter are returned unchanged.  Otherwise insert the path FIRST, then
invoke the external parser (counted); a parse failure is the fatal
"Failed to parse" error; on success the parsed body runs with no
arguments and, if it produced a value, that value is bound to the result
slot. -/
def runFileFastInner (env : Env) (code : CompiledCode) (i : Instruction)
    (regs : Regs) (vm : VMState) (stop : Bool)
    (innerRun : CompiledCode → VMState → Bool → Option RunResult) :
    Option (Except VMError Regs × VMState) :=
  match i.arg 0 with
  | .error e => some (.error e, vm)
  | .ok slot =>
    match i.arg 1 with
    | .error e => some (.error e, vm)
    | .ok index =>
      match code.string index with
      | .error e => some (.error e, vm)
      | .ok path =>
        if vm.executedFiles.contains path then
          some (.ok regs, vm)
        else
          let vm1 : VMState := { vm with
            executedFiles := path :: vm.executedFiles,
            parseCalls := vm.parseCalls + 1 }
          match env.parseFile path with
          | .ok body =>
            match innerRun body vm1 stop with
            | none => none
            | some (.error e, vm') => some (.error e, vm')
            | some (.ok res, vm') =>
              match res with
              | some v => some (.ok (setRegister regs slot v), vm')
              | none => some (.ok regs, vm')
          | .error _ => some (.error (.fatal "Failed to parse file"), vm1)

/-- Handler for `RunFileFast` (`ins_run_file_fast`): the inner body
above, with the recursive invocation performed by `run_code` on the
remaining fuel. -/
def ins_run_file_fast (env : Env) (fuel : Nat) (code : CompiledCode)
    (i : Instruction) (regs : Regs) (vm : VMState) (stop : Bool) :
    Option (Except VMError Regs × VMState) :=
  runFileFastInner env code i regs vm stop (run_code env fuel)

/-- The entry point `VirtualMachine::run` for a thread whose current
frame holds `regs`: if `thread.should_stop` is set, return `Ok(None)`
immediately — BEFORE the loop, the only place the flag is read —
otherwise enter the dispatch loop at index 0. -/
def run (env : Env) (fuel : Nat) (code : CompiledCode) (stop : Bool)
    (regs : Regs) (vm : VMState) : Option RunResult :=
  if stop then
    some (.ok none, vm)
  else
    runLoop env fuel code
      { index := 0, skipUntil := none, retval := none, regs := regs,
        shouldStop := stop, vm := vm }

end InkoVM

namespace InkoVM

def env0 : Env :=
  { parseFile := fun _ => .error "no parser"
    stdoutWriteOutcome := fun s => .ok s.length
    stdoutFlushOutcome := .ok ()
    fileReadOutcome := fun _ => .error "no file" }

def vm0 : VMState := { executedFiles := [], parseCalls := 0 }

def prog1 : CompiledCode :=
  { name := "main", file := "main.inko", line := 1
    instructions :=
      [ ⟨.SetInteger, [1, 0], 1, 1⟩
      , ⟨.SetFalse, [2], 2, 1⟩
      , ⟨.GotoIfFalse, [5, 2], 3, 1⟩
      , ⟨.SetInteger, [1, 1], 4, 1⟩
      , ⟨.Return, [1], 5, 1⟩ ]
    integer_literals := [1, 99]
    string_literals := [] }

/-- One dispatch of the loop body after the fetch, abstracted over the
continuation `next` (the next loop iteration) and `innerRun` (the
`run_code` invocation used by `RunFileFast`).  This is definitionally
the body of `runLoop` — see `runLoop_succ_eq` — and exists so that
induction proofs can reason about a single iteration without exposing
the recursion. -/
def dispatchStep (env : Env) (code : CompiledCode) (i : Instruction)
    (s1 : LoopState) (next : LoopState → Option RunResult)
    (innerRun : CompiledCode → VMState → Bool → Option RunResult) :
    Option RunResult :=
  match i.instruction_type with
  | .SetInteger =>
    match ins_set_integer code i s1.regs with
    | .ok regs' => next { s1 with regs := regs' }
    | .error e => some (.error e, s1.vm)
  | .SetString =>
    match ins_set_string code i s1.regs with
    | .ok regs' => next { s1 with regs := regs' }
    | .error e => some (.error e, s1.vm)
  | .SetTrue =>
    match ins_set_true i s1.regs with
    | .ok regs' => next { s1 with regs := regs' }
    | .error e => some (.error e, s1.vm)
  | .SetFalse =>
    match ins_set_false i s1.regs with
    | .ok regs' => next { s1 with regs := regs' }
    | .error e => some (.error e, s1.vm)
  | .Goto =>
    match ins_goto i with
    | .ok target => next { s1 with index := target }
    | .error e => some (.error e, s1.vm)
  | .GotoIfFalse =>
    match ins_goto_if_false i s1.regs with
    | .ok sk => next { s1 with skipUntil := sk }
    | .error e => some (.error e, s1.vm)
  | .GotoIfTrue =>
    match ins_goto_if_true i s1.regs with
    | .ok sk => next { s1 with skipUntil := sk }
    | .error e => some (.error e, s1.vm)
  | .Return =>
    match ins_return i s1.regs with
    | .ok v => next { s1 with retval := v }
    | .error e => some (.error e, s1.vm)
  | .IntegerDiv =>
    match ins_integer_div i s1.regs with
    | .ok regs' => next { s1 with regs := regs' }
    | .error e => some (.error e, s1.vm)
  | .StdoutWrite =>
    match ins_stdout_write env i s1.regs with
    | .ok regs' => next { s1 with regs := regs' }
    | .error e => some (.error e, s1.vm)
  | .ArrayAt =>
    match ins_array_at i s1.regs with
    | .ok regs' => next { s1 with regs := regs' }
    | .error e => some (.error e, s1.vm)
  | .ArrayRemove =>
    match ins_array_remove i s1.regs with
    | .ok regs' => next { s1 with regs := regs' }
    | .error e => some (.error e, s1.vm)
  | .StringToBytes =>
    match ins_string_to_bytes i s1.regs with
    | .ok regs' => next { s1 with regs := regs' }
    | .error e => some (.error e, s1.vm)
  | .StringFromBytes =>
    match ins_string_from_bytes i s1.regs with
    | .ok regs' => next { s1 with regs := regs' }
    | .error e => some (.error e, s1.vm)
  | .FileRead =>
    match ins_file_read env i s1.regs with
    | .ok regs' => next { s1 with regs := regs' }
    | .error e => some (.error e, s1.vm)
  | .RunFileFast =>
    match runFileFastInner env code i s1.regs s1.vm s1.shouldStop innerRun with
    | none => none
    | some (.ok regs', vm') => next { s1 with regs := regs', vm := vm' }
    | some (.error e, vm') => some (.error e, vm')

/-- An environment whose stdout write fails: exercises the recoverable
I/O error path. -/
def envWriteFails : Env :=
  { parseFile := fun _ => .error "no parser"
    stdoutWriteOutcome := fun _ => .error "EPIPE"
    stdoutFlushOutcome := .ok ()
    fileReadOutcome := fun _ => .error "no file" }

/-- An environment whose parser yields an empty compiled-code body for
every path: exercises the `run_file_fast` first-run path. -/
def envParses : Env :=
  { parseFile := fun p =>
      .ok { name := "loaded", file := String.mk (p.map Char.ofNat), line := 1
            instructions := [], integer_literals := [], string_literals := [] }
    stdoutWriteOutcome := fun s => .ok s.length
    stdoutFlushOutcome := .ok ()
    fileReadOutcome := fun _ => .error "no file" }

/-- Program for the should-stop counterexample: sets an integer and
returns it. -/
def progStop : CompiledCode :=
  { name := "main", file := "main.inko", line := 1
    instructions := [ ⟨.SetInteger, [0, 0], 1, 1⟩, ⟨.Return, [0], 2, 1⟩ ]
    integer_literals := [7]
    string_literals := [] }

/-- A loop state mid-dispatch whose thread has `should_stop` set. -/
def stopState : LoopState :=
  { index := 0, skipUntil := none, retval := none, regs := emptyRegs,
    shouldStop := true, vm := vm0 }

/-- Program with no `Return` instruction at all. -/
def progNoReturn : CompiledCode :=
  { name := "main", file := "main.inko", line := 1
    instructions := [ ⟨.SetInteger, [0, 0], 1, 1⟩, ⟨.SetTrue, [1], 2, 1⟩ ]
    integer_literals := [3]
    string_literals := [] }

/-- Program in which two `Return` instructions execute; the loop must
continue past the first and report the value read by the second. -/
def progTwoReturns : CompiledCode :=
  { name := "main", file := "main.inko", line := 1
    instructions :=
      [ ⟨.SetInteger, [0, 0], 1, 1⟩
      , ⟨.Return, [0], 2, 1⟩
      , ⟨.SetInteger, [0, 1], 3, 1⟩
      , ⟨.Return, [0], 4, 1⟩ ]
    integer_literals := [5, 9]
    string_literals := [] }

/-- Program whose first instruction writes to stdout and which then goes
on to set and return an integer: if the write fails recoverably,
execution must still reach the `Return`. -/
def progWriteThenReturn : CompiledCode :=
  { name := "main", file := "main.inko", line := 1
    instructions :=
      [ ⟨.StdoutWrite, [0, 1], 1, 1⟩
      , ⟨.SetInteger, [2, 0], 2, 1⟩
      , ⟨.Return, [2], 3, 1⟩ ]
    integer_literals := [11]
    string_literals := [] }

/-- Registers holding a string object in slot 1 (the operand of the
stdout write above). -/
def regsWithString : Regs :=
  setRegister emptyRegs 1 (.mk (.objString [104, 105]) (some .string))

/-- Program whose `GotoIfTrue` reads a register that was never written,
then sets and returns an integer: the unset condition must fall through
without an error. -/
def progGotoUnset : CompiledCode :=
  { name := "main", file := "main.inko", line := 1
    instructions :=
      [ ⟨.GotoIfTrue, [9, 7], 1, 1⟩
      , ⟨.SetInteger, [0, 0], 2, 1⟩
      , ⟨.Return, [0], 3, 1⟩ ]
    integer_literals := [4]
    string_literals := [] }

/-- A one-instruction program that loads the file named by string
literal 0. -/
def progRunFile : CompiledCode :=
  { name := "main", file := "main.inko", line := 1
    instructions := [ ⟨.RunFileFast, [0, 0], 1, 1⟩ ]
    integer_literals := []
    string_literals := [[97]] }

/-- A VM state that has already executed the file "a" (`[97]`), with a
nonzero parser-invocation count. -/
def vmExecutedA : VMState := { executedFiles := [[97]], parseCalls := 5 }

/-- An environment whose file oracle yields the two-byte content "hi". -/
def envFile : Env :=
  { parseFile := fun _ => .error "no parser"
    stdoutWriteOutcome := fun s => .ok s.length
    stdoutFlushOutcome := .ok ()
    fileReadOutcome := fun _ => .ok [104, 105] }

/-- A compiled code supplying the integer literal 7 and the string
literal "hi". -/
def codeLit : CompiledCode :=
  { name := "main", file := "main.inko", line := 1
    instructions := []
    integer_literals := [7]
    string_literals := [[104, 105]] }

/-- Registers holding a file object in slot 1. -/
def regsWithFile : Regs :=
  setRegister emptyRegs 1 (.mk (.objFile 0) (some .file))

/-- Registers holding the array [10, 20, 30] in slot 1. -/
def regsWithArray : Regs :=
  setRegister emptyRegs 1
    (.mk (.objArray [.mk (.objInt 10) (some .integer),
                     .mk (.objInt 20) (some .integer),
                     .mk (.objInt 30) (some .integer)]) (some .array))

/-- Registers holding the integer 1 in slot 1 and the integer 0 (a zero
divisor) in slot 2. -/
def regsDivZero : Regs :=
  setRegister (setRegister emptyRegs 1 (.mk (.objInt 1) (some .integer)))
    2 (.mk (.objInt 0) (some .integer))

/-- A one-instruction program dividing register 1 by register 2 into
register 0. -/
def progDivZero : CompiledCode :=
  { name := "main", file := "main.inko", line := 1
    instructions := [ ⟨.IntegerDiv, [0, 1, 2], 1, 1⟩ ]
    integer_literals := []
    string_literals := [] }

/-- Exhausted step budget: no result. -/
theorem runLoop_zero (env : Env) (code : CompiledCode) (s : LoopState) :
    runLoop env 0 code s = none := rfl

/-- One unfolding of the dispatch loop, phrased through `dispatchStep`;
holds definitionally. -/
theorem runLoop_succ_eq (env : Env) (fuel : Nat) (code : CompiledCode)
    (s : LoopState) :
    runLoop env (fuel + 1) code s =
      if h : s.index < code.instructions.length then
        if shouldSkip s.skipUntil s.index then runLoop env fuel code s
        else
          dispatchStep env code (code.instructions[s.index])
            { s with skipUntil := none, index := s.index + 1 }
            (runLoop env fuel code) (run_code env fuel)
      else some (.ok s.retval, s.vm) := rfl

/-- The `continue` slip: with an active skip target not yet reached and
the index in bounds, the loop re-enters with an UNCHANGED state, so no
amount of fuel produces a result. -/
theorem runLoop_stuck_of_skip (env : Env) (code : CompiledCode) :
    ∀ (fuel : Nat) (s : LoopState),
      s.index < code.instructions.length →
      shouldSkip s.skipUntil s.index = true →
      runLoop env fuel code s = none := by
  intro fuel
  induction fuel with
  | zero => intro s _ _; rfl
  | succ n ih =>
    intro s h hs
    rw [runLoop_succ_eq, dif_pos h, if_pos hs]
    exact ih s h hs

/-- Divergence of the branch-taken example program: after `GotoIfFalse`
records skip target 5, the loop is stuck at index 3 forever. -/
theorem run_prog1_diverges (fuel : Nat) :
    run env0 fuel prog1 false emptyRegs vm0 = none := by
  match fuel with
  | 0 => rfl
  | 1 => rfl
  | 2 => rfl
  | n + 3 =>
    exact runLoop_stuck_of_skip env0 prog1 n
      { index := 3, skipUntil := some 5, retval := none,
        regs := setRegister
          (setRegister emptyRegs 1 (.mk (.objInt 1) (some .integer)))
          2 falseObject,
        shouldStop := false, vm := vm0 }
      (by decide) (by decide)

/-- Claim C1 (as amended): executing the compiled code `SetInteger s1,
lit0=1; SetFalse s2; GotoIfFalse 5, s2; SetInteger s1, lit1=99; Return
s1` with integer literal pool [1, 99] does NOT terminate.  `GotoIfFalse`
matches on the false condition and records skip target 5, but the loop's
skip branch `continue`s without advancing the index, so every subsequent
iteration re-examines index 3; for every step budget the loop is still
running and no value — in particular no object with integer value 1 —
is ever returned. -/
theorem claim_c1 (fuel : Nat) :
    run env0 fuel prog1 false emptyRegs vm0 = none :=
  run_prog1_diverges fuel

/-- Claim C1 counterexample: at the claim's exact program, the dispatch
loop never returns any result at all (for no step budget does it
terminate), refuting "terminates ... and the dispatch loop returns an
object whose integer value is 1". -/
theorem claim_c1_counterexample :
    ¬ ∃ (fuel : Nat) (r : Except VMError (Option Obj)) (vm' : VMState),
        run env0 fuel prog1 false emptyRegs vm0 = some (r, vm') := by
  rintro ⟨fuel, r, vm', h⟩
  rw [run_prog1_diverges fuel] at h
  exact Option.noConfusion h

/-- Claim C5 (as amended): the `should_stop` flag is consulted exactly
once, on entry to `run`: entering with the flag set returns `Ok(None)`
immediately (for any program, any step budget — even zero — and with the
VM state untouched), and no instruction handler executes.  The loop body
itself never re-checks the flag (see the counterexample). -/
theorem claim_c5 (env : Env) (fuel : Nat) (code : CompiledCode)
    (regs : Regs) (vm : VMState) :
    run env fuel code true regs vm = some (.ok none, vm) := rfl

/-- Claim C5 counterexample: a dispatch-loop state whose thread has
`should_stop` set.  The claim says every iteration must return
`Ok(None)` immediately without executing handlers; instead the loop runs
the `SetInteger` and `Return` handlers and reports the returned integer
object, because the loop body never reads the flag. -/
theorem claim_c5_counterexample :
    stopState.shouldStop = true ∧
      runLoop env0 3 progStop stopState =
        some (.ok (some (.mk (.objInt 7) (some .integer))), vm0) :=
  ⟨rfl, rfl⟩

/-- A single dispatch of any non-`Return` opcode leaves the recorded
return value alone: whatever the continuation reports for a state with
the same `retval`, the step reports. -/
theorem dispatchStep_retval_of_no_ret (env : Env) (code : CompiledCode)
    (i : Instruction) (s1 : LoopState)
    (next : LoopState → Option RunResult)
    (innerRun : CompiledCode → VMState → Bool → Option RunResult)
    (hty : i.instruction_type ≠ .Return)
    (hnext : ∀ s' v vm', next s' = some (.ok v, vm') →
      s'.retval = s1.retval → v = s1.retval) :
    ∀ v vm', dispatchStep env code i s1 next innerRun = some (.ok v, vm') →
      v = s1.retval := by
  intro v vm' h
  unfold dispatchStep at h
  cases hit : i.instruction_type
  case Return => exact absurd hit hty
  case RunFileFast =>
    simp only [hit] at h
    rcases hrff : runFileFastInner env code i s1.regs s1.vm s1.shouldStop
        innerRun with _ | ⟨e | regs', vmx⟩
    · simp only [hrff] at h
      exact Option.noConfusion h
    · simp only [hrff] at h
      injection h with h1
      injection h1 with h2 h3
      exact Except.noConfusion h2
    · simp only [hrff] at h
      exact hnext _ v vm' h rfl
  all_goals
    simp only [hit] at h
    split at h
    · exact hnext _ v vm' h rfl
    · injection h with h1
      injection h1 with h2 h3
      exact Except.noConfusion h2

/-- Over any number of iterations, a program none of whose instructions
is `Return` leaves the loop's recorded return value untouched. -/
theorem runLoop_retval_of_no_ret (env : Env) (code : CompiledCode)
    (hno : ∀ i ∈ code.instructions, i.instruction_type ≠ .Return) :
    ∀ (fuel : Nat) (s : LoopState) (v : Option Obj) (vm' : VMState),
      runLoop env fuel code s = some (.ok v, vm') → v = s.retval := by
  intro fuel
  induction fuel with
  | zero => intro s v vm' h; exact Option.noConfusion h
  | succ n ih =>
    intro s v vm' h
    rw [runLoop_succ_eq] at h
    by_cases hidx : s.index < code.instructions.length
    · rw [dif_pos hidx] at h
      by_cases hskip : shouldSkip s.skipUntil s.index = true
      · rw [if_pos hskip] at h
        exact ih s v vm' h
      · rw [if_neg hskip] at h
        exact dispatchStep_retval_of_no_ret env code (code.instructions[s.index])
          { s with skipUntil := none, index := s.index + 1 }
          (runLoop env n code) (run_code env n)
          (hno _ (List.getElem_mem hidx))
          (fun s' v vm' h' h2 => (ih s' v vm' h').trans h2) v vm' h
    · rw [dif_neg hidx] at h
      injection h with h1
      injection h1 with h2 h3
      injection h2 with h4
      exact h4.symm

/-- Claim C6: `Return` is recording, not terminating.  (1) For a
compiled code none of whose instructions is `Return` (so no `Return` can
execute), a completed dispatch reports `None`.  (2) Dispatching a
`Return` instruction does not end the loop: the loop continues at the
following index, with the recorded return value replaced by the register
value the `Return` read at that moment — so the value reported at the
end is the one read by the last `Return` that executed.  (3) In the
concrete program `SetInteger s0,lit0=5; Return s0; SetInteger s0,lit1=9;
Return s0`, execution continues past the first `Return` and the loop
reports the integer object 9 read by the second. -/
theorem claim_c6 :
    (∀ (env : Env) (fuel : Nat) (code : CompiledCode) (s : LoopState)
       (v : Option Obj) (vm' : VMState),
       (∀ i ∈ code.instructions, i.instruction_type ≠ .Return) →
       s.retval = none →
       runLoop env fuel code s = some (.ok v, vm') → v = none)
  ∧ (∀ (env : Env) (fuel : Nat) (code : CompiledCode) (s : LoopState)
       (slot l c : Nat)
       (hidx : s.index < code.instructions.length),
       code.instructions[s.index] = ⟨.Return, [slot], l, c⟩ →
       s.skipUntil = none →
       runLoop env (fuel + 1) code s =
         runLoop env fuel code
           { s with index := s.index + 1, retval := s.regs slot })
  ∧ run env0 10 progTwoReturns false emptyRegs vm0 =
      some (.ok (some (.mk (.objInt 9) (some .integer))), vm0) := by
  refine ⟨?_, ?_, rfl⟩
  · intro env fuel code s v vm' hno hrv h
    exact (runLoop_retval_of_no_ret env code hno fuel s v vm' h).trans hrv
  · intro env fuel code s slot l c hidx hins hskip
    rw [runLoop_succ_eq, dif_pos hidx]
    have hsk : shouldSkip s.skipUntil s.index = false := by
      rw [hskip]; rfl
    rw [if_neg (by rw [hsk]; exact Bool.false_ne_true)]
    rw [hins]
    cases s with
    | mk idx sk rv regs stop vm =>
      simp only at hskip
      subst hskip
      rfl

/-- Witness for claim C6: instantiates part (1) on a concrete two
instruction program with no `Return` (budget 5, reported value `None`)
and part (2) at the first `Return` of the two-`Return` program,
discharging every hypothesis by computation. -/
theorem claim_c6_witness :
    ((∀ i ∈ progNoReturn.instructions, i.instruction_type ≠ .Return) ∧
      runLoop env0 5 progNoReturn
        { index := 0, skipUntil := none, retval := none, regs := emptyRegs,
          shouldStop := false, vm := vm0 } = some (.ok none, vm0) ∧
      (none : Option Obj) = none)
  ∧ (progTwoReturns.instructions[1] = ⟨.Return, [0], 2, 1⟩ ∧
      runLoop env0 9 progTwoReturns
        { index := 1, skipUntil := none, retval := none,
          regs := setRegister emptyRegs 0 (.mk (.objInt 5) (some .integer)),
          shouldStop := false, vm := vm0 } =
      runLoop env0 8 progTwoReturns
        { index := 2, skipUntil := none,
          retval := setRegister emptyRegs 0 (.mk (.objInt 5) (some .integer)) 0,
          regs := setRegister emptyRegs 0 (.mk (.objInt 5) (some .integer)),
          shouldStop := false, vm := vm0 }) :=
  ⟨⟨by decide, rfl,
    claim_c6.1 env0 5 progNoReturn
      { index := 0, skipUntil := none, retval := none, regs := emptyRegs,
        shouldStop := false, vm := vm0 } none vm0 (by decide) rfl rfl⟩,
   ⟨by decide,
    claim_c6.2.1 env0 8 progTwoReturns
      { index := 1, skipUntil := none, retval := none,
        regs := setRegister emptyRegs 0 (.mk (.objInt 5) (some .integer)),
        shouldStop := false, vm := vm0 } 0 2 1 (by decide) (by decide) rfl⟩⟩

/-- The `RunFileFast` handler body can only grow the executed-files
registry, provided its inner invocation can only grow it. -/
theorem runFileFastInner_executed_mono (env : Env) (code : CompiledCode)
    (i : Instruction) (regs : Regs) (vm : VMState) (stop : Bool)
    (innerRun : CompiledCode → VMState → Bool → Option RunResult)
    (hinner : ∀ body vmI stopI res vm',
      innerRun body vmI stopI = some (res, vm') →
      vmI.executedFiles ⊆ vm'.executedFiles) :
    ∀ res vm',
      runFileFastInner env code i regs vm stop innerRun = some (res, vm') →
      vm.executedFiles ⊆ vm'.executedFiles := by
  intro res vm' h
  unfold runFileFastInner at h
  rcases h0 : i.arg 0 with e0 | slot <;> simp only [h0] at h
  · injection h with h1; injection h1 with h2 h3; subst h3
    exact List.Subset.refl _
  rcases h1 : i.arg 1 with e1 | index <;> simp only [h1] at h
  · injection h with h1; injection h1 with h2 h3; subst h3
    exact List.Subset.refl _
  rcases h2 : code.string index with e2 | path <;> simp only [h2] at h
  · injection h with h1; injection h1 with h2 h3; subst h3
    exact List.Subset.refl _
  by_cases hc : vm.executedFiles.contains path = true
  · rw [if_pos hc] at h
    injection h with h1; injection h1 with h2 h3; subst h3
    exact List.Subset.refl _
  · rw [if_neg hc] at h
    rcases hp : env.parseFile path with ep | body <;> simp only [hp] at h
    · injection h with h1; injection h1 with h2 h3; subst h3
      exact List.subset_cons_self _ _
    rcases hr : innerRun body
        { vm with executedFiles := path :: vm.executedFiles,
                  parseCalls := vm.parseCalls + 1 } stop
        with _ | ⟨eI | resI, vmI⟩ <;> simp only [hr] at h
    · exact Option.noConfusion h
    · injection h with h1; injection h1 with h2 h3; subst h3
      exact List.Subset.trans (List.subset_cons_self _ _)
        (hinner body _ stop _ vmI hr)
    · have hsub : vm.executedFiles ⊆ vmI.executedFiles :=
        List.Subset.trans (List.subset_cons_self _ _)
          (hinner body _ stop _ vmI hr)
      rcases resI with _ | v <;> simp only at h <;>
        (injection h with h1; injection h1 with h2 h3; subst h3; exact hsub)

/-- A single dispatch can only grow the executed-files registry,
provided the continuation and the inner invocation can only grow it. -/
theorem dispatchStep_executed_mono (env : Env) (code : CompiledCode)
    (i : Instruction) (s1 : LoopState)
    (next : LoopState → Option RunResult)
    (innerRun : CompiledCode → VMState → Bool → Option RunResult)
    (hnext : ∀ s' res vm', next s' = some (res, vm') →
      s'.vm.executedFiles ⊆ vm'.executedFiles)
    (hinner : ∀ body vmI stopI res vm',
      innerRun body vmI stopI = some (res, vm') →
      vmI.executedFiles ⊆ vm'.executedFiles) :
    ∀ res vm', dispatchStep env code i s1 next innerRun = some (res, vm') →
      s1.vm.executedFiles ⊆ vm'.executedFiles := by
  intro res vm' h
  unfold dispatchStep at h
  cases hit : i.instruction_type
  case RunFileFast =>
    simp only [hit] at h
    rcases hrff : runFileFastInner env code i s1.regs s1.vm s1.shouldStop
        innerRun with _ | ⟨eI | regsI, vmI⟩ <;> simp only [hrff] at h
    · exact Option.noConfusion h
    · injection h with h1; injection h1 with h2 h3; subst h3
      exact runFileFastInner_executed_mono env code i s1.regs s1.vm
        s1.shouldStop innerRun hinner _ vmI hrff
    · exact List.Subset.trans
        (runFileFastInner_executed_mono env code i s1.regs s1.vm
          s1.shouldStop innerRun hinner _ vmI hrff)
        (hnext _ res vm' h)
  all_goals
    simp only [hit] at h
    split at h
    · have hx := hnext _ res vm' h
      exact hx
    · injection h with h1; injection h1 with h2 h3; subst h3
      exact List.Subset.refl _

/-- Over any number of iterations the dispatch loop can only grow the
executed-files registry. -/
theorem runLoop_executed_mono (env : Env) :
    ∀ (fuel : Nat) (code : CompiledCode) (s : LoopState)
      (res : Except VMError (Option Obj)) (vm' : VMState),
      runLoop env fuel code s = some (res, vm') →
      s.vm.executedFiles ⊆ vm'.executedFiles := by
  intro fuel
  induction fuel with
  | zero => intro code s res vm' h; exact Option.noConfusion h
  | succ n ih =>
    intro code s res vm' h
    rw [runLoop_succ_eq] at h
    by_cases hidx : s.index < code.instructions.length
    · rw [dif_pos hidx] at h
      by_cases hskip : shouldSkip s.skipUntil s.index = true
      · rw [if_pos hskip] at h
        exact ih code s res vm' h
      · rw [if_neg hskip] at h
        refine dispatchStep_executed_mono env code (code.instructions[s.index])
          { s with skipUntil := none, index := s.index + 1 }
          (runLoop env n code) (run_code env n)
          (fun s' res' vm'' h' => ih code s' res' vm'' h') ?_ res vm' h
        intro body vmI stopI res' vm'' h'
        unfold run_code at h'
        by_cases hstop : stopI = true
        · rw [if_pos hstop] at h'
          injection h' with h1; injection h1 with h2 h3; subst h3
          exact List.Subset.refl _
        · rw [if_neg hstop] at h'
          exact ih body _ res' vm'' h'
    · rw [dif_neg hidx] at h
      injection h with h1; injection h1 with h2 h3; subst h3
      exact List.Subset.refl _

/-- A nested `run_code` invocation can only grow the executed-files
registry. -/
theorem run_code_executed_mono (env : Env) (fuel : Nat)
    (body : CompiledCode) (vm : VMState) (stop : Bool)
    (res : Except VMError (Option Obj)) (vm' : VMState)
    (h : run_code env fuel body vm stop = some (res, vm')) :
    vm.executedFiles ⊆ vm'.executedFiles := by
  unfold run_code at h
  by_cases hstop : stop = true
  · rw [if_pos hstop] at h
    injection h with h1; injection h1 with h2 h3; subst h3
    exact List.Subset.refl _
  · rw [if_neg hstop] at h
    exact runLoop_executed_mono env fuel body _ res vm' h

/-- Claim C7: at-most-once semantics of `RunFileFast`.  (1) When the
path is already in the executed-files registry the handler is a no-op:
it returns the register file and the entire VM state unchanged — in
particular the parser-invocation counter is unchanged, so the parser is
not invoked, nothing is run, and the result slot keeps its binding.
(2) Whenever a `RunFileFast` handler completes, its path literal is in
the resulting registry (the first run inserts it before parsing and
nothing ever removes it).  (3) The executed-files registry grows
monotonically across any dispatch-loop execution. -/
theorem claim_c7 :
    (∀ (env : Env) (fuel : Nat) (code : CompiledCode) (i : Instruction)
       (regs : Regs) (vm : VMState) (stop : Bool)
       (slot index : Nat) (path : List Nat),
       i.arg 0 = .ok slot →
       i.arg 1 = .ok index →
       code.string index = .ok path →
       vm.executedFiles.contains path = true →
       ins_run_file_fast env fuel code i regs vm stop = some (.ok regs, vm))
  ∧ (∀ (env : Env) (fuel : Nat) (code : CompiledCode) (i : Instruction)
       (regs : Regs) (vm : VMState) (stop : Bool)
       (slot index : Nat) (path : List Nat)
       (res : Except VMError Regs) (vm' : VMState),
       i.arg 0 = .ok slot →
       i.arg 1 = .ok index →
       code.string index = .ok path →
       ins_run_file_fast env fuel code i regs vm stop = some (res, vm') →
       path ∈ vm'.executedFiles)
  ∧ (∀ (env : Env) (fuel : Nat) (code : CompiledCode) (s : LoopState)
       (res : Except VMError (Option Obj)) (vm' : VMState),
       runLoop env fuel code s = some (res, vm') →
       s.vm.executedFiles ⊆ vm'.executedFiles) := by
  refine ⟨?_, ?_, fun env fuel code s res vm' h =>
    runLoop_executed_mono env fuel code s res vm' h⟩
  · intro env fuel code i regs vm stop slot index path h0 h1 h2 hc
    unfold ins_run_file_fast runFileFastInner
    simp only [h0, h1, h2]
    rw [if_pos hc]
  · intro env fuel code i regs vm stop slot index path res vm' h0 h1 h2 h
    unfold ins_run_file_fast runFileFastInner at h
    simp only [h0, h1, h2] at h
    by_cases hc : vm.executedFiles.contains path = true
    · rw [if_pos hc] at h
      injection h with h1x; injection h1x with h2x h3x; subst h3x
      exact List.elem_iff.mp hc
    · rw [if_neg hc] at h
      have hmem : path ∈
          ({ vm with executedFiles := path :: vm.executedFiles,
                     parseCalls := vm.parseCalls + 1 } : VMState).executedFiles :=
        List.mem_cons_self _ _
      rcases hp : env.parseFile path with ep | body <;> simp only [hp] at h
      · injection h with h1x; injection h1x with h2x h3x; subst h3x
        exact hmem
      rcases hr : run_code env fuel body
          { vm with executedFiles := path :: vm.executedFiles,
                    parseCalls := vm.parseCalls + 1 } stop
          with _ | ⟨eI | resI, vmI⟩ <;> simp only [hr] at h
      · exact Option.noConfusion h
      · injection h with h1x; injection h1x with h2x h3x; subst h3x
        exact run_code_executed_mono env fuel body _ stop _ vmI hr hmem
      · have hin : path ∈ vmI.executedFiles :=
          run_code_executed_mono env fuel body _ stop _ vmI hr hmem
        rcases resI with _ | v <;> simp only at h <;>
          (injection h with h1x; injection h1x with h2x h3x; subst h3x;
            exact hin)

/-- Witness for claim C7: part (1) on a VM that already executed the
file "a" (handler is the identity), part (2) on a first execution with a
parsing environment (the path lands in the registry), part (3) on a
completed dispatch of the no-`Return` program. -/
theorem claim_c7_witness :
    (vmExecutedA.executedFiles.contains [97] = true ∧
      ins_run_file_fast env0 0 progRunFile ⟨.RunFileFast, [0, 0], 1, 1⟩
        emptyRegs vmExecutedA false = some (.ok emptyRegs, vmExecutedA))
  ∧ [97] ∈ ({ executedFiles := [[97]], parseCalls := 1 } : VMState).executedFiles
  ∧ vm0.executedFiles ⊆ vm0.executedFiles :=
  ⟨⟨by decide,
    claim_c7.1 env0 0 progRunFile ⟨.RunFileFast, [0, 0], 1, 1⟩ emptyRegs
      vmExecutedA false 0 0 [97] rfl rfl rfl (by decide)⟩,
   claim_c7.2.1 envParses 1 progRunFile ⟨.RunFileFast, [0, 0], 1, 1⟩ emptyRegs
     vm0 false 0 0 [97] (.ok emptyRegs)
     { executedFiles := [[97]], parseCalls := 1 } rfl rfl rfl rfl,
   claim_c7.2.2 env0 5 progNoReturn
     { index := 0, skipUntil := none, retval := none, regs := emptyRegs,
       shouldStop := false, vm := vm0 } (.ok none) vm0 rfl⟩

/-- Claim C2 (the code deviates): `ins_set_integer` and `ins_set_string`
do bind objects whose prototype matches the value kind (integer value
with integer prototype, string value with string prototype), but
`ins_file_read` allocates its string-valued result with the INTEGER
prototype (`int_proto` at virtual_machine.rs:1888), so the universal
claim fails at the `FileRead` instruction. -/
theorem claim_c2 :
    (ins_set_integer codeLit ⟨.SetInteger, [0, 0], 1, 1⟩ emptyRegs =
      .ok (setRegister emptyRegs 0 (.mk (.objInt 7) (some .integer))))
  ∧ (ins_set_string codeLit ⟨.SetString, [0, 0], 1, 1⟩ emptyRegs =
      .ok (setRegister emptyRegs 0
        (.mk (.objString [104, 105]) (some .string))))
  ∧ (ins_file_read envFile ⟨.FileRead, [0, 1], 1, 1⟩ regsWithFile =
      .ok (setRegister regsWithFile 0
        (.mk (.objString [104, 105]) (some .integer))))
  ∧ Proto.integer ≠ Proto.string :=
  ⟨rfl, rfl, rfl, by decide⟩

/-- Claim C3 (the code deviates): `ins_array_remove` takes the array
from the register named by its second argument but reads the removal
index from the SECOND argument as well (`instruction.arg(1)`), not from
the third as `ins_array_at` does.  With arguments [0, 1, 2] and register
1 holding [10, 20, 30], the handler removes index 1 — the element 20 —
and binds it to register 0; the claim's reading (index from the third
argument, 2) would remove 30. -/
theorem claim_c3 :
    ins_array_remove ⟨.ArrayRemove, [0, 1, 2], 1, 1⟩ regsWithArray =
      .ok (setRegister
        (setRegister regsWithArray 1
          (.mk (.objArray [.mk (.objInt 10) (some .integer),
                           .mk (.objInt 30) (some .integer)]) (some .array)))
        0 (.mk (.objInt 20) (some .integer))) := rfl

/-- Claim C4 (the code deviates): with integer operands 1 and 0,
`ins_integer_div` evaluates `1 / 0` with Rust's `/` on `i64`, which is a
runtime panic ("attempt to divide by zero") that unwinds the OS thread —
not the handler `Err` value the claim describes; no result object is
bound, and the dispatch loop's error regime (exit status, backtrace,
peer stop) is bypassed.  The second conjunct shows the loop-level
outcome is the crash, not a fatal handler error. -/
theorem claim_c4 :
    ins_integer_div ⟨.IntegerDiv, [0, 1, 2], 1, 1⟩ regsDivZero =
      .error (.crash "attempt to divide by zero")
  ∧ runLoop env0 2 progDivZero
      { index := 0, skipUntil := none, retval := none, regs := regsDivZero,
        shouldStop := false, vm := vm0 } =
      some (.error (.crash "attempt to divide by zero"), vm0)
  ∧ (∀ msg msg2, VMError.crash msg ≠ VMError.fatal msg2) :=
  ⟨rfl, rfl, fun _ _ h => VMError.noConfusion h⟩

/-- Reduction of a successful `Except` bind (the monad instance has no
simp lemmas of its own in this toolchain). -/
theorem except_ok_bind {e a b : Type} (x : a) (f : a → Except e b) :
    (Except.ok x >>= f : Except e b) = f x := rfl

/-- Reduction of `pure` for `Except`. -/
theorem except_pure_eq {e a : Type} (x : a) :
    (pure x : Except e a) = Except.ok x := rfl

/-- Claim C9: both stdout-writing handlers are total on string operands.
(1) The dispatch-loop handler `ins_stdout_write` returns `Ok` for every
write outcome, binding the result slot to an integer object carrying the
byte count on success and to an error object on failure.  (2) The
`stdout_write` handler of `src/vm/instructions/stdout.rs` does the same
with a flush after the write: an integer with the byte count when both
succeed, an error object when either fails.  (3) At the loop level a
failing write does not abort the thread: execution continues with the
following instructions. -/
theorem claim_c9 :
    (∀ (env : Env) (i : Instruction) (regs : Regs) (slot argslot : Nat)
       (s : List Nat) (p : Option Proto),
       i.arg 0 = .ok slot → i.arg 1 = .ok argslot →
       regs argslot = some (.mk (.objString s) p) →
       ins_stdout_write env i regs =
         .ok (setRegister regs slot
           (match env.stdoutWriteOutcome s with
            | .ok n => .mk (.objInt (Int.ofNat n)) (some .integer)
            | .error e => .mk (.objError e) none)))
  ∧ (∀ (env : Env) (i : Instruction) (regs : Regs) (slot argslot : Nat)
       (s : List Nat) (p : Option Proto),
       i.arg 0 = .ok slot → i.arg 1 = .ok argslot →
       regs argslot = some (.mk (.objString s) p) →
       stdout_write env i regs =
         .ok (setRegister regs slot
           (match env.stdoutWriteOutcome s with
            | .ok num_bytes =>
              match env.stdoutFlushOutcome with
              | .ok _ => Obj.mk (.objInt (Int.ofNat num_bytes)) none
              | .error e => Obj.mk (.objError e) none
            | .error e => Obj.mk (.objError e) none)))
  ∧ run envWriteFails 5 progWriteThenReturn false regsWithString vm0 =
      some (.ok (some (.mk (.objInt 11) (some .integer))), vm0) := by
  refine ⟨?_, ?_, rfl⟩
  · intro env i regs slot argslot s p h0 h1 hreg
    simp only [ins_stdout_write, instructionObject, getRegister, h0, h1, hreg,
      except_ok_bind, Obj.value, ObjectValue.asString, except_pure_eq]
    rcases env.stdoutWriteOutcome s with e | n <;> rfl
  · intro env i regs slot argslot s p h0 h1 hreg
    simp only [stdout_write, getRegister, h0, h1, hreg,
      except_ok_bind, Obj.value, ObjectValue.asString, except_pure_eq]

/-- Witness for claim C9: both handlers applied to a concrete register
file holding the string "hi" in slot 1, under the environment whose
write fails with EPIPE — each binds an error object to slot 0 and
returns `Ok`. -/
theorem claim_c9_witness :
    (Instruction.arg ⟨.StdoutWrite, [0, 1], 1, 1⟩ 0 = .ok 0 ∧
     Instruction.arg ⟨.StdoutWrite, [0, 1], 1, 1⟩ 1 = .ok 1 ∧
     regsWithString 1 = some (.mk (.objString [104, 105]) (some .string))) ∧
    ins_stdout_write envWriteFails ⟨.StdoutWrite, [0, 1], 1, 1⟩
        regsWithString =
      .ok (setRegister regsWithString 0 (.mk (.objError "EPIPE") none)) ∧
    stdout_write envWriteFails ⟨.StdoutWrite, [0, 1], 1, 1⟩ regsWithString =
      .ok (setRegister regsWithString 0 (.mk (.objError "EPIPE") none)) :=
  ⟨⟨rfl, rfl, rfl⟩,
   claim_c9.1 envWriteFails ⟨.StdoutWrite, [0, 1], 1, 1⟩ regsWithString
     0 1 [104, 105] (some .string) rfl rfl rfl,
   claim_c9.2.1 envWriteFails ⟨.StdoutWrite, [0, 1], 1, 1⟩ regsWithString
     0 1 [104, 105] (some .string) rfl rfl rfl⟩

/-- Claim C10: (1) `ins_goto_if_true` whose condition register was never
written reads the slot through `get_register_option`, observes `none`,
raises no error and does not branch (it reports no skip target).  (2) At
the loop level the concrete program `GotoIfTrue 9, s7; SetInteger s0,
lit0=4; Return s0` — register 7 never written — falls through and
executes the following instructions, returning the integer object 4.
(3) By contrast, the plain `get_register` read that `collect_arguments`
performs on an unset slot is a fatal error. -/
theorem claim_c10 :
    (∀ (i : Instruction) (regs : Regs) (t cond : Nat),
       i.arg 0 = .ok t → i.arg 1 = .ok cond → regs cond = none →
       ins_goto_if_true i regs = .ok none)
  ∧ run env0 5 progGotoUnset false emptyRegs vm0 =
      some (.ok (some (.mk (.objInt 4) (some .integer))), vm0)
  ∧ (∀ (regs : Regs) (slot : Nat), regs slot = none →
       getRegister regs slot =
         .error (.fatal "attempted to read an unset register slot"))
  ∧ (∀ (i : Instruction) (regs : Regs) (arg_index : Nat),
       i.arguments[0]? = some arg_index → regs arg_index = none →
       collect_arguments i regs 0 1 =
         .error (.fatal "attempted to read an unset register slot")) := by
  refine ⟨?_, rfl, ?_, ?_⟩
  · intro i regs t cond h0 h1 hreg
    simp only [ins_goto_if_true, h0, h1, hreg, except_ok_bind,
      getRegisterOption, except_pure_eq]
  · intro regs slot hreg
    simp only [getRegister, hreg]
  · intro i regs arg_index hargs hreg
    simp only [collect_arguments, List.range, List.range.loop, List.mapM,
      List.mapM.loop, hargs, hreg, getRegister]
    rfl

/-- Witness for claim C10: the unset-condition jump at a concrete
instruction falls through without error, while `get_register` and
`collect_arguments` on unset slots fail fatally. -/
theorem claim_c10_witness :
    (Instruction.arg ⟨.GotoIfTrue, [9, 7], 1, 1⟩ 0 = .ok 9 ∧
     Instruction.arg ⟨.GotoIfTrue, [9, 7], 1, 1⟩ 1 = .ok 7 ∧
     emptyRegs 7 = none) ∧
    ins_goto_if_true ⟨.GotoIfTrue, [9, 7], 1, 1⟩ emptyRegs = .ok none ∧
    getRegister emptyRegs 7 =
      .error (.fatal "attempted to read an unset register slot") ∧
    collect_arguments ⟨.GotoIfTrue, [9, 7], 1, 1⟩ emptyRegs 0 1 =
      .error (.fatal "attempted to read an unset register slot") :=
  ⟨⟨rfl, rfl, rfl⟩,
   claim_c10.1 ⟨.GotoIfTrue, [9, 7], 1, 1⟩ emptyRegs 9 7 rfl rfl rfl,
   claim_c10.2.2.1 emptyRegs 7 rfl,
   claim_c10.2.2.2 ⟨.GotoIfTrue, [9, 7], 1, 1⟩ emptyRegs 9 rfl rfl⟩

/-- Bytes accepted by the UTF-8 validator are byte-valued: every entry
is below 256, provided the pending continuation ranges are. -/
theorem validUtf8From_lt_256 :
    ∀ (l : List Nat) (expect : List (Nat × Nat)),
      (∀ p ∈ expect, p.2 < 256) →
      validUtf8From expect l = true → ∀ x ∈ l, x < 256 := by
  intro l
  induction l with
  | nil => intro expect hexp hv x hx; cases hx
  | cons b rest ih =>
    intro expect hexp hv x hx
    rcases expect with _ | ⟨⟨lo, hi⟩, expect2⟩
    · simp only [validUtf8From] at hv
      split at hv
      all_goals (repeat' split at hv)
      all_goals first
        | exact Bool.noConfusion hv
        | (rcases List.mem_cons.mp hx with rfl | hx
           · first
             | omega
             | (simp_all only [Bool.and_eq_true, decide_eq_true_eq,
                  Bool.or_eq_true]
                omega)
           · refine ih _ ?_ hv x hx
             decide)
    · simp only [validUtf8From, Bool.and_eq_true, decide_eq_true_eq] at hv
      obtain ⟨⟨hlo, hhi⟩, hv⟩ := hv
      rcases List.mem_cons.mp hx with rfl | hx
      · have hp := hexp (lo, hi) (List.mem_cons_self _ _)
        simp only at hp
        omega
      · exact ih expect2 (fun p hp => hexp p (List.mem_cons_of_mem _ hp)) hv
          x hx

/-- Bytes of a valid UTF-8 sequence are below 256. -/
theorem validUtf8_lt_256 (l : List Nat) (h : validUtf8 l = true) :
    ∀ x ∈ l, x < 256 :=
  validUtf8From_lt_256 l [] (fun p hp => absurd hp (List.not_mem_nil p)) h

/-- The integer objects produced by `ins_string_to_bytes` all pass the
`ensure_integers!` check of `ins_string_from_bytes`, recovering the
original integer values. -/
theorem mapM_asInteger_of_to_bytes (s : List Nat) :
    (s.map (fun b => Obj.mk (.objInt (Int.ofNat b)) (some .integer))).mapM
      (fun o => o.value.asInteger) = .ok (s.map Int.ofNat) := by
  induction s with
  | nil => rfl
  | cons b rest ih =>
    rw [List.map_cons, List.mapM_cons, ih]
    rfl

/-- The `as u8` cast is the identity on a byte value. -/
theorem intToU8_ofNat (b : Nat) (h : b < 256) :
    intToU8 (Int.ofNat b) = b := by
  unfold intToU8
  rw [show (Int.ofNat b) = (b : Int) from rfl]
  rw [Int.emod_eq_of_lt (by omega) (by omega)]
  exact Int.toNat_ofNat b

/-- Casting the recovered values back to `u8` is the identity on bytes
below 256. -/
theorem map_intToU8_of_lt (s : List Nat) (hb : ∀ x ∈ s, x < 256) :
    (s.map Int.ofNat).map intToU8 = s := by
  induction s with
  | nil => rfl
  | cons b rest ih =>
    have hlt : b < 256 := hb b (List.mem_cons_self _ _)
    have htail := ih (fun x hx => hb x (List.mem_cons_of_mem _ hx))
    simp only [List.map_cons, intToU8_ofNat b hlt, htail]

/-- Projection of a constructed object (a constructor-shaped rewrite,
usable where unfolding `Obj.value` itself would also rewrite under
binders). -/
theorem obj_value_mk (v : ObjectValue) (p : Option Proto) :
    (Obj.mk v p).value = v := rfl

/-- Claim C8: the bytes round trip.  For any register holding a string
object with valid UTF-8 text, `StringToBytes` binds the array of its
byte values (integer objects), and running `StringFromBytes` on that
array binds a string object with the string prototype whose text is
byte-for-byte the original string: the round trip is the identity. -/
theorem claim_c8 :
    ∀ (s : List Nat) (regs : Regs) (r1 r2 r3 : Nat) (p : Option Proto),
      validUtf8 s = true →
      regs r1 = some (.mk (.objString s) p) →
      ins_string_to_bytes ⟨.StringToBytes, [r2, r1], 1, 1⟩ regs =
        .ok (setRegister regs r2
          (.mk (.objArray (s.map (fun b =>
            Obj.mk (.objInt (Int.ofNat b)) (some .integer)))) (some .array)))
      ∧ ins_string_from_bytes ⟨.StringFromBytes, [r3, r2], 1, 1⟩
          (setRegister regs r2
            (.mk (.objArray (s.map (fun b =>
              Obj.mk (.objInt (Int.ofNat b)) (some .integer))))
              (some .array))) =
        .ok (setRegister
          (setRegister regs r2
            (.mk (.objArray (s.map (fun b =>
              Obj.mk (.objInt (Int.ofNat b)) (some .integer))))
              (some .array)))
          r3 (.mk (.objString s) (some .string))) := by
  intro s regs r1 r2 r3 p hv hreg
  have hb := validUtf8_lt_256 s hv
  constructor
  · simp only [ins_string_to_bytes, Instruction.arg, List.getElem?_cons_zero,
      List.getElem?_cons_succ, instructionObject, getRegister, hreg,
      except_ok_bind, Obj.value, ObjectValue.asString, except_pure_eq]
  · simp only [ins_string_from_bytes, Instruction.arg, List.getElem?_cons_zero,
      List.getElem?_cons_succ, instructionObject, getRegister, setRegister,
      eq_self_iff_true, if_true, except_ok_bind, obj_value_mk,
      ObjectValue.asArray, except_pure_eq, mapM_asInteger_of_to_bytes,
      map_intToU8_of_lt s hb, hv]

/-- Witness for claim C8: the round trip on the concrete string "abc"
(bytes [97, 98, 99]) — `StringFromBytes` applied to the array produced
by `StringToBytes` binds a string object equal to the original. -/
theorem claim_c8_witness :
    validUtf8 [97, 98, 99] = true ∧
    ins_string_from_bytes ⟨.StringFromBytes, [3, 2], 1, 1⟩
        (setRegister
          (setRegister emptyRegs 1
            (.mk (.objString [97, 98, 99]) (some .string)))
          2 (.mk (.objArray [.mk (.objInt 97) (some .integer),
                             .mk (.objInt 98) (some .integer),
                             .mk (.objInt 99) (some .integer)])
              (some .array))) =
      .ok (setRegister
        (setRegister
          (setRegister emptyRegs 1
            (.mk (.objString [97, 98, 99]) (some .string)))
          2 (.mk (.objArray [.mk (.objInt 97) (some .integer),
                             .mk (.objInt 98) (some .integer),
                             .mk (.objInt 99) (some .integer)])
              (some .array)))
        3 (.mk (.objString [97, 98, 99]) (some .string))) :=
  ⟨by decide,
   (claim_c8 [97, 98, 99]
     (setRegister emptyRegs 1 (.mk (.objString [97, 98, 99]) (some .string)))
     1 2 3 (some .string) (by decide) rfl).2⟩
